import Mathlib

/-!
Shallow embedding of the core of `src/scripts/generate_rss.py` (Zscaler
Help Releases RSS generator) and proofs about the claims of its
specification.

Modelling conventions:
* Python `datetime` values are modelled by `DT`: a wall-clock reading (an
  integer number of seconds) together with an optional UTC offset in
  seconds (`none` models a naive datetime, `some off` a timezone-aware
  one). `datetime.now(timezone.utc)` is modelled by an integer `clock`
  parameter turned into the aware value `⟨clock, some 0⟩`; the wall clock
  is treated as constant for the duration of one modelled call.
* `dateutil.parser.parse` is an external library; it is modelled by an
  oracle parameter `dp : String → Except Unit (Option DT)`: `.error` models
  the call raising, `.ok none` models a falsy result, `.ok (some dt)`
  models a parsed datetime (aware or naive according to `dt.tz`).
* XML documents (`xml.etree.ElementTree`) are modelled by the `Xml` tree:
  an element has a (possibly namespace-qualified) tag, the optional text
  before its first child, its attributes and its child elements.
  Iterating a Python element iterates its children.
* Python string truthiness (`if elem.text:`) is `none`-or-empty; `.strip()`
  is modelled by `trimL` (the inputs of interest are ASCII).
* Network and gzip are oracles: `fetchB : String → Option (List Nat)`
  (`none` models a raised transport error), `gz : List Nat → Option (List Nat)`
  (`none` models `gzip` raising), `pX : List Nat → Option Xml` (`none`
  models `ET.fromstring` raising).
-/

namespace ZsRss

/-! ### String primitives

The Python string operations the source uses (`lower`, `strip`,
`endswith`, substring membership, lexicographic comparison) are modelled
over the character list of the Lean string, with ASCII semantics. -/

/-- ASCII model of the regex class `\s` and of the whitespace stripped by
Python `strip`. -/
def isSpaceC (c : Char) : Bool := c.isWhitespace

/-- Python `s.lower()` (ASCII model). -/
def lowerStr (s : String) : String := String.mk (s.data.map Char.toLower)

/-- Python `s.endswith(suf)`. -/
def endsWithL (s suf : String) : Bool := suf.data.reverse.isPrefixOf s.data.reverse

/-- Python `s.strip()` (ASCII model): leading and trailing whitespace
removed. -/
def trimL (s : String) : String :=
  String.mk (((s.data.dropWhile isSpaceC).reverse.dropWhile isSpaceC).reverse)

/-- The closing-brace character. -/
def rbrace : Char := Char.ofNat 125

/-- Python `tag.split(rbrace)[-1]` as used by the nested `localname`
helpers of `generate_rss.py`: everything after the last closing brace of
a namespace-qualified XML tag. -/
def localname (tag : String) : String :=
  String.mk ((tag.data.reverse.takeWhile (fun c => c ≠ rbrace)).reverse)

/-- Lexicographic order on char lists by code point, as Python compares
strings. -/
def lexLe : List Char → List Char → Bool
  | [], _ => true
  | _ :: _, [] => false
  | a :: as, b :: bs =>
    if a = b then lexLe as bs else decide (a.toNat < b.toNat)

/-- Python `a <= b` on strings. -/
def strLeL (a b : String) : Bool := lexLe a.data b.data

/-- Python `sep.join(parts)`. -/
def intercalateL (sep : String) : List String → String
  | [] => ""
  | [x] => x
  | x :: y :: xs => x ++ sep ++ intercalateL sep (y :: xs)

/-- Model of a Python `datetime`: wall-clock reading in seconds plus an
optional UTC offset in seconds (`none` = naive, `some off` = aware). -/
structure DT where
  wall : Int
  tz : Option Int
deriving Repr, DecidableEq

/-- The absolute instant an aware datetime denotes (wall minus offset).
Only used where the source compares aware datetimes. -/
def DT.instant (d : DT) : Int := d.wall - d.tz.getD 0

/-- Model of `dt.astimezone(timezone.utc)` on an aware datetime: same
instant, offset zero. -/
def astimezoneUtc (dt : DT) : DT := ⟨dt.wall - dt.tz.getD 0, some 0⟩

/-- Oracle type modelling `dateutil.parser.parse`. -/
abbrev DateParser := String → Except Unit (Option DT)

/-- Embedding of `normalize_date` (`generate_rss.py` lines 456-472).
`if not date_text:` is true for both `None` and the empty string. The
`try/except` around `dateparser.parse` maps `.error` to "now"; a falsy
parse result also maps to "now"; a naive result gets
`replace(tzinfo=timezone.utc)`; finally `astimezone(timezone.utc)`. -/
def normalize_date (dp : DateParser) (clock : Int) (date_text : Option String) : DT :=
  let noww : DT := ⟨clock, some 0⟩
  match date_text with
  | none => noww
  | some s =>
    if s = "" then noww
    else
      match dp s with
      | .error _ => noww
      | .ok none => noww
      | .ok (some dt) =>
        let dt' := if dt.tz = none then { dt with tz := some 0 } else dt
        astimezoneUtc dt'

/-- A feed entry as built by `parse_rss_feed` / the scraper: the dict
`{"title", "link", "published", "source_page"}`. -/
structure Entry where
  title : String
  link : String
  published : DT
  source_page : String
deriving Repr, DecidableEq

/-- Model of an `xml.etree.ElementTree` element. -/
inductive Xml where
  | el (tag : String) (text : Option String) (attrs : List (String × String)) (children : List Xml)

def Xml.tag : Xml → String
  | .el t _ _ _ => t

def Xml.text : Xml → Option String
  | .el _ x _ _ => x

def Xml.attrs : Xml → List (String × String)
  | .el _ _ a _ => a

def Xml.children : Xml → List Xml
  | .el _ _ _ c => c

/-- Python `elem.get(key)`: attribute lookup. -/
def getAttr (e : Xml) (key : String) : Option String :=
  (e.attrs.find? (fun kv => kv.1 == key)).map (fun kv => kv.2)

/-- Python string truthiness on an optional string: `None` and `""` are
falsy. -/
def truthyText (t : Option String) : Option String :=
  t.bind (fun s => if s = "" then none else some s)

/-- Accumulator for the per-item field loop of `parse_rss_feed`. -/
structure ItemAcc where
  title : String
  link : String
  pub_date : Option DT
deriving Repr, DecidableEq

/-- One iteration of the RSS 2.0 item field loop (`generate_rss.py`
lines 383-390): `title`/`link` take the stripped element text when it is
truthy, `pubDate` runs `normalize_date`; later occurrences overwrite
earlier ones. -/
def rss_item_step (dp : DateParser) (clock : Int) (st : ItemAcc) (elem : Xml) : ItemAcc :=
  let tag := localname elem.tag
  if tag = "title" then
    match truthyText elem.text with
    | some s => { st with title := trimL s }
    | none => st
  else if tag = "link" then
    match truthyText elem.text with
    | some s => { st with link := trimL s }
    | none => st
  else if tag = "pubDate" then
    match truthyText elem.text with
    | some s => { st with pub_date := some (normalize_date dp clock (some s)) }
    | none => st
  else st

/-- One iteration of the Atom entry field loop (`generate_rss.py`
lines 410-419): `link` reads the `href` attribute; both `published` and
`updated` write `pub_date`, so the last such element wins. -/
def atom_entry_step (dp : DateParser) (clock : Int) (st : ItemAcc) (elem : Xml) : ItemAcc :=
  let tag := localname elem.tag
  if tag = "title" then
    match truthyText elem.text with
    | some s => { st with title := trimL s }
    | none => st
  else if tag = "link" then
    match truthyText (getAttr elem ("href")) with
    | some h => { st with link := trimL h }
    | none => st
  else if tag = "published" ∨ tag = "updated" then
    match truthyText elem.text with
    | some s => { st with pub_date := some (normalize_date dp clock (some s)) }
    | none => st
  else st

/-- Fields collected from one RSS `<item>`. -/
def rss_item_fields (dp : DateParser) (clock : Int) (item : Xml) : ItemAcc :=
  item.children.foldl (rss_item_step dp clock) ⟨"", "", none⟩

/-- Fields collected from one Atom `<entry>`. -/
def atom_entry_fields (dp : DateParser) (clock : Int) (entry : Xml) : ItemAcc :=
  entry.children.foldl (atom_entry_step dp clock) ⟨"", "", none⟩

/-- The truthy texts of the `published`/`updated` children of an Atom
entry, in document order. -/
def atom_date_texts (entry : Xml) : List String :=
  entry.children.filterMap (fun e =>
    if localname e.tag = "published" ∨ localname e.tag = "updated" then truthyText e.text
    else none)

/-- The append guard of `parse_rss_feed` for an RSS item
(`generate_rss.py` lines 392-398): the item is kept only when both title
and link are non-empty; `published` defaults to `datetime.now(timezone.utc)`
when no `pubDate` was seen. -/
def rss_extract (dp : DateParser) (clock : Int) (feed_url : String) (item : Xml) : Option Entry :=
  let f := rss_item_fields dp clock item
  if f.title ≠ "" ∧ f.link ≠ "" then
    some ⟨f.title, f.link, f.pub_date.getD ⟨clock, some 0⟩, feed_url⟩
  else none

/-- The append guard of `parse_rss_feed` for an Atom entry
(`generate_rss.py` lines 421-427). -/
def atom_extract (dp : DateParser) (clock : Int) (feed_url : String) (entry : Xml) : Option Entry :=
  let f := atom_entry_fields dp clock entry
  if f.title ≠ "" ∧ f.link ≠ "" then
    some ⟨f.title, f.link, f.pub_date.getD ⟨clock, some 0⟩, feed_url⟩
  else none

/-- Embedding of `parse_rss_feed` (`generate_rss.py` lines 342-434)
applied to the parsed document `root` (the fetch, the looks-like-XML
checks and `ET.fromstring` are abstracted away: the theorems speak about
documents that reached the dialect dispatch). -/
def parse_rss_feed (dp : DateParser) (clock : Int) (feed_url : String) (root : Xml) : List Entry :=
  let rt := localname root.tag
  if rt = "rss" then
    (root.children.filter (fun c => localname c.tag == "channel")).flatMap
      (fun channel =>
        (channel.children.filter (fun i => localname i.tag == "item")).filterMap
          (rss_extract dp clock feed_url))
  else if rt = "feed" then
    (root.children.filter (fun e => localname e.tag == "entry")).filterMap
      (atom_extract dp clock feed_url)
  else
    []

/-- The `<item>` elements of all `<channel>` children of an RSS root, in
document order. -/
def rss_items (root : Xml) : List Xml :=
  (root.children.filter (fun c => localname c.tag == "channel")).flatMap
    (fun channel => channel.children.filter (fun i => localname i.tag == "item"))

/-- Embedding of step 5 of `main` (`generate_rss.py` lines 576-577 and
654-655): `cutoff = now(utc) - timedelta(days=BACKFILL_DAYS)` and
`[it for it in aggregated if it["published"] >= cutoff]`. Aware datetimes
compare by instant. -/
def window_filter (clock : Int) (backfill_days : Int) (aggregated : List Entry) : List Entry :=
  let cutoff : DT := ⟨clock - backfill_days * 86400, some 0⟩
  aggregated.filter (fun it => decide (cutoff.instant ≤ it.published.instant))

/-- Embedding of step 6 of `main` (`generate_rss.py` lines 658-665):
deduplication by link with a `seen` set, first occurrence wins. -/
def dedup_by_link (window_items : List Entry) : List Entry :=
  (window_items.foldl
    (fun (acc : List Entry × List String) it =>
      if acc.2.contains it.link then acc
      else (acc.1 ++ [it], acc.2 ++ [it.link]))
    ([], [])).1

/-- Embedding of the ordering applied by `build_feed` (`generate_rss.py`
line 549): `sorted(items, key=lambda x: x["published"], reverse=True)`.
Python `sorted` is the unique stable sort for the given total preorder,
and with `reverse=True` elements with equal keys still keep their input
order; `List.mergeSort` with the comparator "a may precede b iff
b.published ≤ a.published" has exactly that behaviour. -/
def build_feed_order (items : List Entry) : List Entry :=
  items.mergeSort (fun a b => decide (b.published.instant ≤ a.published.instant))

/-! ## Sitemap resolution (`maybe_decompress_sitemap`, `parse_sitemap`) -/

/-- Python substring membership `needle in hay` over char lists. -/
def infixAux (n : List Char) : List Char → Bool
  | [] => n.isEmpty
  | c :: rest => n.isPrefixOf (c :: rest) || infixAux n rest

/-- Python `needle in hay` for strings. -/
def containsSub (hay needle : String) : Bool :=
  infixAux needle.toList hay.toList

/-- Text of the first `<loc>` child of an element, stripped, when truthy
(`generate_rss.py` lines 174-176 and 197-199). -/
def first_loc_text (e : Xml) : Option String :=
  match e.children.find? (fun c => localname c.tag == "loc") with
  | some locEl => (truthyText locEl.text).map trimL
  | none => none

/-- Nested sitemap URLs of a `<sitemapindex>` root (`generate_rss.py`
lines 170-176). -/
def sitemap_index_nested (root : Xml) : List String :=
  root.children.filterMap (fun sm =>
    if localname sm.tag == "sitemap" then first_loc_text sm else none)

/-- The `<url><loc>` texts of a `<urlset>` root (`generate_rss.py`
lines 193-199). -/
def urlset_locs (root : Xml) : List String :=
  root.children.filterMap (fun u =>
    if localname u.tag == "url" then first_loc_text u else none)

mutual
/-- Python `root.iter()`: the element and all its descendants in document
(preorder) order. -/
def Xml.iterAll : Xml → List Xml
  | .el t x a cs => .el t x a cs :: iterAllList cs
def iterAllList : List Xml → List Xml
  | [] => []
  | c :: cs => Xml.iterAll c ++ iterAllList cs
end

/-- The generic fallback of `parse_sitemap` (`generate_rss.py`
lines 201-205): every truthy `<loc>` text anywhere in the tree. -/
def all_locs (root : Xml) : List String :=
  root.iterAll.filterMap (fun e =>
    if localname e.tag == "loc" then (truthyText e.text).map trimL else none)

/-- Embedding of `maybe_decompress_sitemap` (`generate_rss.py`
lines 117-132): decompress when the lowercased URL ends in `.gz`, or when
the first two bytes are the gzip magic; a decompression failure
(`gz _ = none`) is caught and the raw bytes returned. -/
def maybe_decompress (gz : List Nat → Option (List Nat)) (url : String)
    (content : List Nat) : List Nat :=
  if endsWithL (lowerStr url) (".gz") then (gz content).getD content
  else if content.take 2 = [0x1f, 0x8b] then (gz content).getD content
  else content

/-- Embedding of `parse_sitemap` (`generate_rss.py` lines 143-207).
`fB` models `fetch_bytes` (`none` = transport error raised and caught),
`pX` models `ET.fromstring` (`none` = parse error raised and caught),
`sched` models the completion order in which `as_completed` yields the
nested resolutions (the theorems assume it permutes its input), and
`fuel` bounds the recursion depth (the source recursion is over the web
of sitemap documents). -/
def parse_sitemap (fB : String → Option (List Nat)) (gz : List Nat → Option (List Nat))
    (pX : List Nat → Option Xml) (sched : List String → List String) :
    Nat → String → List String
  | 0, _ => []
  | fuel + 1, url =>
    match fB url with
    | none => []
    | some raw =>
      match pX (maybe_decompress gz url raw) with
      | none => []
      | some root =>
        if localname root.tag = "sitemapindex" then
          (sched (sitemap_index_nested root)).flatMap
            (parse_sitemap fB gz pX sched fuel)
        else
          let urls := if localname root.tag = "urlset" then urlset_locs root else []
          if urls = [] then all_locs root else urls

/-! ## HTML date extraction (`extract_date_from_soup`) -/

/-- Model of a BeautifulSoup node: an element (tag, attributes, children)
or a text node. -/
inductive HNode where
  | elm (tag : String) (attrs : List (String × String)) (children : List HNode)
  | txt (s : String)

mutual
/-- The element itself and all descendant elements in document order. -/
def HNode.elems : HNode → List HNode
  | .elm t a cs => .elm t a cs :: elemsList cs
  | .txt _ => []
def elemsList : List HNode → List HNode
  | [] => []
  | c :: cs => HNode.elems c ++ elemsList cs
end

mutual
/-- All descendant text fragments of a node in document order. -/
def HNode.strings : HNode → List String
  | .elm _ _ cs => stringsList cs
  | .txt s => [s]
def stringsList : List HNode → List String
  | [] => []
  | c :: cs => HNode.strings c ++ stringsList cs
end

/-- The tag of an element node. -/
def hTag : HNode → Option String
  | .elm t _ _ => some t
  | .txt _ => none

/-- BeautifulSoup `el.get(key)`. -/
def hGetAttr (e : HNode) (key : String) : Option String :=
  match e with
  | .elm _ a _ => (a.find? (fun kv => kv.1 == key)).map (fun kv => kv.2)
  | .txt _ => none

/-- A soup is modelled as the list of top-level document nodes; this is
`soup.select("*")` and the search space of `soup.find`: all elements in
document order. -/
def docElems (doc : List HNode) : List HNode :=
  doc.flatMap HNode.elems

/-- BeautifulSoup `get_text(sep, strip=True)`: each descendant string is
stripped, whitespace-only fragments are dropped, the rest joined by
`sep`. -/
def get_text (sep : String) (e : HNode) : String :=
  intercalateL sep ((e.strings.map trimL).filter (fun s => s ≠ ""))

/-- `soup.select_one('meta[attrName="attrVal"]')`: first `meta` element in
document order carrying that exact attribute value. -/
def select_one_meta (doc : List HNode) (attrName attrVal : String) : Option HNode :=
  (docElems doc).find? (fun e =>
    hTag e == some ("meta") && hGetAttr e attrName == some attrVal)

/-- One meta-selector probe of `extract_date_from_soup`
(`generate_rss.py` lines 486-495): the selected element must exist and
its `content` attribute must be truthy. -/
def meta_content (doc : List HNode) (attrName attrVal : String) : Option String :=
  (select_one_meta doc attrName attrVal).bind (fun e => truthyText (hGetAttr e ("content")))

/-- ASCII model of the regex class `\w`. -/
def isWordC (c : Char) : Bool := c.isAlphanum || c == '_'

/-- ASCII model of the regex class `\d`. -/
def isDigitC (c : Char) : Bool := c.isDigit

/-- Length of the maximal run of `p`-characters at the head. -/
def runLen (p : Char → Bool) (cs : List Char) : Nat :=
  (cs.takeWhile p).length

/-- Whether the list starts with at least `n` digits. -/
def digitsAt (n : Nat) (cs : List Char) : Bool :=
  decide ((cs.take n).length = n) && (cs.take n).all isDigitC

/-- Matcher for the regex tail `\s+\w+\s+\d{4}`; returns the matched
length. Greedy runs are maximal, which coincides with backtracking
semantics because the classes `\s`, `\w` are disjoint. -/
def dmyTail (cs : List Char) : Option Nat :=
  let s1 := runLen isSpaceC cs
  if s1 = 0 then none else
  let r2 := cs.drop s1
  let w := runLen isWordC r2
  if w = 0 then none else
  let r3 := r2.drop w
  let s2 := runLen isSpaceC r3
  if s2 = 0 then none else
  if digitsAt 4 (r3.drop s2) then some (s1 + w + s2 + 4) else none

/-- Matcher for the alternative `\d{1,2}\s+\w+\s+\d{4}` ("31 December
2024") at the current position; the day length backtracks from 2 to 1 as
the regex engine would. -/
def matchDMY (cs : List Char) : Option Nat :=
  (if digitsAt 2 cs then (dmyTail (cs.drop 2)).map (fun n => 2 + n) else none) <|>
  (if digitsAt 1 cs then (dmyTail (cs.drop 1)).map (fun n => 1 + n) else none)

/-- Matcher for the regex tail `,\s*\d{4}`. -/
def mdyAfterDay (cs : List Char) : Option Nat :=
  match cs with
  | ',' :: rest =>
    let s := runLen isSpaceC rest
    if digitsAt 4 (rest.drop s) then some (1 + s + 4) else none
  | _ => none

/-- Matcher for the alternative `\w+\s+\d{1,2},\s*\d{4}` ("December 31,
2024") at the current position. -/
def matchMDY (cs : List Char) : Option Nat :=
  let w := runLen isWordC cs
  if w = 0 then none else
  let r1 := cs.drop w
  let s1 := runLen isSpaceC r1
  if s1 = 0 then none else
  let r2 := r1.drop s1
  (if digitsAt 2 r2 then (mdyAfterDay (r2.drop 2)).map (fun n => w + s1 + 2 + n) else none) <|>
  (if digitsAt 1 r2 then (mdyAfterDay (r2.drop 1)).map (fun n => w + s1 + 1 + n) else none)

/-- Matcher for the alternative `\d{4}-\d{2}-\d{2}` ("2024-12-31") at the
current position. -/
def matchISO (cs : List Char) : Option Nat :=
  if digitsAt 4 cs then
    match cs.drop 4 with
    | '-' :: r1 =>
      if digitsAt 2 r1 then
        match r1.drop 2 with
        | '-' :: r2 => if digitsAt 2 r2 then some 10 else none
        | _ => none
      else none
    | _ => none
  else none

/-- The three alternatives of the date regex of `extract_date_from_soup`
(`generate_rss.py` line 515), tried in pattern order at one position. -/
def dateAltsAt (cs : List Char) : Option Nat :=
  matchDMY cs <|> matchMDY cs <|> matchISO cs

/-- Leftmost-match search: positions are scanned left to right, the first
position where some alternative matches wins. -/
def dateSearchAux : List Char → Option (List Char)
  | [] => (dateAltsAt []).map (fun n => ([] : List Char).take n)
  | c :: rest =>
    match dateAltsAt (c :: rest) with
    | some n => some ((c :: rest).take n)
    | none => dateSearchAux rest

/-- Model of `re.search(r"(\d{1,2}\s+\w+\s+\d{4}|\w+\s+\d{1,2},\s*\d{4}|\d{4}-\d{2}-\d{2})", t)`
returning `m.group(1)` (the whole match). -/
def date_regex_search (s : String) : Option String :=
  (dateSearchAux s.toList).map (fun cs => String.mk cs)

/-- The keyword list of the heuristic scan (`generate_rss.py` line 510). -/
def date_keywords : List String :=
  ["published", "updated", "release", "date", "released", "last updated"]

/-- The heuristic scan of `extract_date_from_soup` (`generate_rss.py`
lines 507-517): elements in document order; the first element whose
visible text contains a keyword (case-insensitively) and yields a regex
match wins; keyword-bearing elements without a regex match are skipped. -/
def heuristic_scan (doc : List HNode) : Option String :=
  (docElems doc).findSome? (fun c =>
    let t := get_text (" ") c
    let tl := lowerStr t
    if date_keywords.any (fun k => containsSub tl k) then date_regex_search t
    else none)

/-- Embedding of `extract_date_from_soup` (`generate_rss.py`
lines 475-520), transcribed with the same early returns. -/
def extract_date_from_soup (dp : DateParser) (clock : Int) (doc : List HNode) : DT :=
  match meta_content doc ("property") ("article:published_time") with
  | some v => normalize_date dp clock (some v)
  | none =>
  match meta_content doc ("name") ("article:published_time") with
  | some v => normalize_date dp clock (some v)
  | none =>
  match meta_content doc ("property") ("og:updated_time") with
  | some v => normalize_date dp clock (some v)
  | none =>
  match meta_content doc ("name") ("date") with
  | some v => normalize_date dp clock (some v)
  | none =>
  match (docElems doc).find? (fun e => hTag e == some ("time")) with
  | some timeEl =>
    match truthyText (hGetAttr timeEl ("datetime")) with
    | some d => normalize_date dp clock (some d)
    | none =>
      let txt := get_text ("") timeEl
      if txt ≠ "" then normalize_date dp clock (some txt)
      else
        match heuristic_scan doc with
        | some m => normalize_date dp clock (some m)
        | none => ⟨clock, some 0⟩
  | none =>
    match heuristic_scan doc with
    | some m => normalize_date dp clock (some m)
    | none => ⟨clock, some 0⟩

/-- The strategy chain of the spec, written as a first-match-wins
alternation producing the raw date text each strategy would hand to the
normalizer (`none` when every strategy misses). Stated from the words of
the specification, for comparison with `extract_date_from_soup`. -/
def date_text_strategy (doc : List HNode) : Option String :=
  meta_content doc ("property") ("article:published_time") <|>
  meta_content doc ("name") ("article:published_time") <|>
  meta_content doc ("property") ("og:updated_time") <|>
  meta_content doc ("name") ("date") <|>
  (((docElems doc).find? (fun e => hTag e == some ("time"))).bind (fun timeEl =>
    truthyText (hGetAttr timeEl ("datetime")) <|>
    (let txt := get_text ("") timeEl
     if txt ≠ "" then some txt else none))) <|>
  heuristic_scan doc

/-! ## URL parsing (`is_help_domain`, `select_relevant_urls`) -/

/-- The characters CPython allows inside a URL scheme. -/
def scheme_char (c : Char) : Bool :=
  c.isAlpha || c.isDigit || c == '+' || c == '-' || c == '.'

/-- Model of the scheme split of CPython `urllib.parse.urlsplit`: a colon
at a positive index, an ASCII letter first, only scheme characters before
the colon; the scheme is lowercased, otherwise the input is untouched. -/
def split_scheme (cs : List Char) : List Char × List Char :=
  match cs.findIdx? (fun c => c == ':') with
  | some i =>
    if 0 < i ∧ (cs.headD 'a').isAlpha ∧ ((cs.take i).drop 1).all scheme_char then
      ((cs.take i).map Char.toLower, cs.drop (i + 1))
    else ([], cs)
  | none => ([], cs)

/-- Model of CPython `urllib.parse.urlparse` reduced to the fields the
source uses (`scheme`, `netloc`, `path`): tab/CR/LF characters are
removed, then the scheme is split, then a leading `//` delimits the
netloc (up to `/`, `?` or `#`); a netloc with unbalanced square brackets
raises `ValueError` ("Invalid IPv6 URL"), modelled by `.error`; the path
is the remainder up to `?` or `#`. -/
def urlsplit_model (url : String) : Except Unit (String × String × String) :=
  let cs := url.toList.filter (fun c => c ≠ '\t' ∧ c ≠ '\r' ∧ c ≠ '\n')
  let p := split_scheme cs
  let rest := p.2
  if rest.take 2 = ['/', '/'] then
    let netloc := (rest.drop 2).takeWhile (fun c => c ≠ '/' ∧ c ≠ '?' ∧ c ≠ '#')
    let after := (rest.drop 2).drop netloc.length
    if (netloc.contains '[' && !(netloc.contains ']')) ||
       (netloc.contains ']' && !(netloc.contains '[')) then
      .error ()
    else
      .ok (String.mk p.1, String.mk netloc,
           String.mk (after.takeWhile (fun c => c ≠ '?' ∧ c ≠ '#')))
  else
    .ok (String.mk p.1, "", String.mk (rest.takeWhile (fun c => c ≠ '?' ∧ c ≠ '#')))

/-- Embedding of `is_help_domain` (`generate_rss.py` lines 135-140): the
scheme must be `http` or `https` and the raw netloc must merely end with
the string `help.zscaler.com`; a parse error is caught and yields
`False`. -/
def is_help_domain (url : String) : Bool :=
  match urlsplit_model url with
  | .error _ => false
  | .ok (sch, netloc, _) =>
    (sch == "http" || sch == "https") && endsWithL netloc ("help.zscaler.com")

/-- ASCII apostrophe, kept out of string literals. -/
def apos : Char := Char.ofNat 39

/-- The inclusion hints of `select_relevant_urls` (`generate_rss.py`
lines 44-48); the third is `what's-new`. -/
def URL_INCLUDE_HINTS : List String :=
  ["release-notes", "whats-new", String.mk ['w','h','a','t', apos, 's','-','n','e','w']]

/-- The exclusion hints of `select_relevant_urls` (`generate_rss.py`
lines 53-55). -/
def URL_EXCLUDE_HINTS : List String :=
  ["/tag/", "/taxonomy/", "/author/", "/search", "/attachment", "/node/"]

/-- The path component `urlparse(u).path` used by `select_relevant_urls`
(that call cannot raise there, since `is_help_domain` already returned
`True` for the same string). -/
def pathOf (u : String) : String :=
  match urlsplit_model u with
  | .ok (_, _, p) => p
  | .error _ => ""

/-- Embedding of `select_relevant_urls` (`generate_rss.py`
lines 437-453): keep help-domain URLs whose lowercased path avoids every
exclusion hint and contains some inclusion hint; the Python `sorted(set)`
of the survivors is the sorted list of distinct survivors. -/
def select_relevant_urls (all_urls : List String) : List String :=
  ((all_urls.filter (fun u =>
      is_help_domain u &&
      (let path := lowerStr (pathOf u)
       !(URL_EXCLUDE_HINTS.any (fun e => containsSub path e)) &&
       URL_INCLUDE_HINTS.any (fun h => containsSub path h)))).dedup).mergeSort
    (fun a b => strLeL a b)

/-! ## Concrete instances used by witnesses and counterexamples -/

/-- A date-parse oracle: `offex` parses to a wall reading 100 at offset
60 seconds; everything else raises. -/
def dpW : DateParser := fun s =>
  if s = "offex" then .ok (some ⟨100, some 60⟩) else .error ()

/-- A date-parse oracle for the RSS examples: `pd` parses, everything
else raises. -/
def dpC1 : DateParser := fun s =>
  if s = "pd" then .ok (some ⟨1000, some 0⟩) else .error ()

/-- A concrete RSS 2.0 document with two well-formed items and one item
lacking a link. -/
def rssDocC1 : Xml :=
  .el "rss" none [] [
    .el "channel" none [] [
      .el "item" none [] [
        .el "title" (some "First") [] [],
        .el "link" (some "http://a") [] [],
        .el "pubDate" (some "pd") [] []],
      .el "item" none [] [
        .el "title" (some "Second") [] [],
        .el "link" (some "http://b") [] []],
      .el "item" none [] [
        .el "title" (some "NoLink") [] []]]]

/-- The opening-brace character. -/
def lbrace : Char := Char.ofNat 123

/-- A tag qualified with the Atom XML namespace, as `ElementTree`
presents it. -/
def atomNs (t : String) : String :=
  String.mk [lbrace] ++ "http://www.w3.org/2005/Atom" ++ String.mk [rbrace] ++ t

/-- A date-parse oracle where both Atom date strings parse, to distinct
aware UTC values. -/
def dpC3 : DateParser := fun s =>
  if s = "2024-01-01T00:00:00Z" then .ok (some ⟨1111, some 0⟩)
  else if s = "2024-06-01T00:00:00Z" then .ok (some ⟨2222, some 0⟩)
  else .error ()

/-- A concrete Atom entry carrying both a `published` element and, after
it, an `updated` element, both with parsable values. -/
def entryC3 : Xml :=
  .el (atomNs ("entry")) none [] [
    .el (atomNs ("title")) (some "T") [] [],
    .el (atomNs ("link")) none [("href", "http://t")] [],
    .el (atomNs ("published")) (some "2024-01-01T00:00:00Z") [] [],
    .el (atomNs ("updated")) (some "2024-06-01T00:00:00Z") [] []]

/-- A concrete Atom feed around `entryC3`. -/
def atomDocC3 : Xml :=
  .el (atomNs ("feed")) none [] [entryC3]

/-- A concrete RSS 2.0 document whose two items are both well formed. -/
def rssDocGood : Xml :=
  .el "rss" none [] [
    .el "channel" none [] [
      .el "item" none [] [
        .el "title" (some "First") [] [],
        .el "link" (some "http://a") [] []],
      .el "item" none [] [
        .el "title" (some "Second") [] [],
        .el "link" (some "http://b") [] []]]]

/-- Proof helper: the first-occurrence-by-link subsequence of a list,
relative to a set of already-seen links. -/
def firstByLink (seen : List String) : List Entry → List Entry
  | [] => []
  | x :: l =>
    if seen.contains x.link then firstByLink seen l
    else x :: firstByLink (seen ++ [x.link]) l

/-- A gzip oracle that always fails. -/
def gzNone : List Nat → Option (List Nat) := fun _ => none

/-- A two-URL `urlset` document. -/
def subDoc (a b : String) : Xml :=
  .el "urlset" none [] [
    .el "url" none [] [.el "loc" (some a) [] []],
    .el "url" none [] [.el "loc" (some b) [] []]]

/-- A sitemap index listing two sub-sitemaps. -/
def rootDoc4 : Xml :=
  .el "sitemapindex" none [] [
    .el "sitemap" none [] [.el "loc" (some "S1") [] []],
    .el "sitemap" none [] [.el "loc" (some "S2") [] []]]

/-- Fetch oracle for the two-sub-sitemap scenario. -/
def fb4 : String → Option (List Nat) := fun u =>
  if u = "ROOT" then some [0]
  else if u = "S1" then some [1]
  else if u = "S2" then some [2]
  else none

/-- XML-parse oracle for the two-sub-sitemap scenario. -/
def px4 : List Nat → Option Xml := fun b =>
  if b = [0] then some rootDoc4
  else if b = [1] then some (subDoc "u1" "u2")
  else if b = [2] then some (subDoc "u3" "u4")
  else none

/-- A `urlset` root whose only `<loc>` is NOT wrapped in a `<url>`
element. -/
def looseDoc : Xml :=
  .el "urlset" none [] [.el "loc" (some "https://x/a") [] []]

/-- Fetch oracle serving `looseDoc` under the URL `S`. -/
def fbL : String → Option (List Nat) := fun u =>
  if u = "S" then some [9] else none

/-- XML-parse oracle for `looseDoc`. -/
def pxL : List Nat → Option Xml := fun b =>
  if b = [9] then some looseDoc else none

/-- Fetch oracle for a sitemap index whose first branch fails to fetch:
`R2` is the index, `T1` raises, `T2` is a two-URL urlset. -/
def fbPart : String → Option (List Nat) := fun u =>
  if u = "R2" then some [10]
  else if u = "T2" then some [11]
  else none

/-- XML-parse oracle for the partially failing index scenario. -/
def pxPart : List Nat → Option Xml := fun b =>
  if b = [10] then
    some (.el "sitemapindex" none [] [
      .el "sitemap" none [] [.el "loc" (some "T1") [] []],
      .el "sitemap" none [] [.el "loc" (some "T2") [] []]])
  else if b = [11] then some (subDoc "v1" "v2")
  else none

/-- Stated from the words of the specification, for comparison: on a
`urlset` root the resolver is claimed to collect exactly the
`<url><loc>` texts. -/
def spec_urlset_result (root : Xml) : List String := urlset_locs root

/-! ## Helper lemmas (shared across claims) -/

/-- The normalizer always produces an aware UTC value. -/
theorem normalize_date_tz (dp : DateParser) (clock : Int) (t : Option String) :
    (normalize_date dp clock t).tz = some 0 := by
  unfold normalize_date
  match t with
  | none => rfl
  | some s =>
    simp only
    split
    · rfl
    · match h : dp s with
      | .error e => rfl
      | .ok none => rfl
      | .ok (some dt) => simp [astimezoneUtc]

/-- Pushing a `filterMap` out of a `flatMap`. -/
theorem flatMap_filterMap {α β γ : Type} (l : List α) (g : α → List β) (f : β → Option γ) :
    (l.flatMap (fun a => (g a).filterMap f)) = (l.flatMap g).filterMap f := by
  induction l with
  | nil => rfl
  | cons a l ih => simp [List.flatMap_cons, List.filterMap_append, ih]

/-- The length of a `filterMap` counts the inputs on which the function
succeeds. -/
theorem length_filterMap_eq_countP {α β : Type} (f : α → Option β) (l : List α) :
    (l.filterMap f).length = l.countP (fun a => (f a).isSome) := by
  induction l with
  | nil => rfl
  | cons a l ih =>
    cases h : f a <;>
      simp [List.filterMap_cons, h, List.countP_cons, ih]

/-- Membership in an appended seen-list splits into the two parts. -/
theorem contains_append_str (l₁ l₂ : List String) (a : String) :
    ((l₁ ++ l₂).contains a) = (l₁.contains a || l₂.contains a) := by
  induction l₁ with
  | nil => simp
  | cons x l ih => simp [List.contains_cons, ih, Bool.or_assoc]

/-- `firstByLink` only depends on the membership of the seen-list. -/
theorem firstByLink_congr (l : List Entry) (s₁ s₂ : List String)
    (h : ∀ a, s₁.contains a = s₂.contains a) :
    firstByLink s₁ l = firstByLink s₂ l := by
  induction l generalizing s₁ s₂ with
  | nil => rfl
  | cons x l ih =>
    unfold firstByLink
    rw [h x.link]
    split
    · exact ih s₁ s₂ h
    · rw [ih (s₁ ++ [x.link]) (s₂ ++ [x.link])
        (fun a => by rw [contains_append_str, contains_append_str, h a])]

/-- Equation lemma for `firstByLink` on a cons. -/
theorem firstByLink_cons (seen : List String) (x : Entry) (l : List Entry) :
    firstByLink seen (x :: l)
      = if seen.contains x.link then firstByLink seen l
        else x :: firstByLink (seen ++ [x.link]) l := rfl

/-- Marking a link as seen is the same as filtering it out of the rest of
the input. -/
theorem firstByLink_filter (l : List Entry) : ∀ (seen : List String) (s : String),
    firstByLink (seen ++ [s]) l
      = firstByLink seen (l.filter (fun e => !(e.link == s))) := by
  induction l with
  | nil => intro seen s; rfl
  | cons x l ih =>
    intro seen s
    by_cases hxs : x.link = s
    · subst hxs
      simp only [firstByLink_cons, List.filter_cons, contains_append_str,
        List.contains_cons, List.contains_nil, beq_self_eq_true, Bool.or_true,
        Bool.or_false, Bool.not_true]
      simp only [if_pos rfl, if_neg (by simp : ¬ (false = true))]
      exact ih seen x.link
    · have hb : (x.link == s) = false := by simp [hxs]
      simp only [firstByLink_cons, List.filter_cons, contains_append_str,
        List.contains_cons, List.contains_nil, hb, Bool.or_false, Bool.not_false]
      simp only [if_true]
      rw [firstByLink_cons]
      cases hseen : seen.contains x.link with
      | true =>
        simp only [eq_self_iff_true, if_true]
        exact ih seen s
      | false =>
        rw [if_neg Bool.false_ne_true, if_neg Bool.false_ne_true]
        congr 1
        rw [firstByLink_congr l ((seen ++ [s]) ++ [x.link]) ((seen ++ [x.link]) ++ [s])
          (fun a => by
            simp only [contains_append_str]
            cases seen.contains a <;> cases h2 : [s].contains a <;>
              cases h3 : [x.link].contains a <;> simp)]
        rw [ih (seen ++ [x.link]) s]

/-- The imperative seen-set loop of step 6 computes `firstByLink`. -/
theorem dedup_fold (l : List Entry) : ∀ (acc : List Entry) (seen : List String),
    (l.foldl
      (fun (acc : List Entry × List String) it =>
        if acc.2.contains it.link then acc
        else (acc.1 ++ [it], acc.2 ++ [it.link])) (acc, seen)).1
      = acc ++ firstByLink seen l := by
  induction l with
  | nil => intro acc seen; simp [firstByLink]
  | cons x l ih =>
    intro acc seen
    rw [List.foldl_cons, firstByLink_cons]
    by_cases h : seen.contains x.link = true
    · simp only [h, if_pos rfl]
      exact ih acc seen
    · have h' : seen.contains x.link = false := by simpa using h
      simp only [h', if_neg (by simp : ¬ (false = true))]
      rw [ih (acc ++ [x]) (seen ++ [x.link])]
      simp

/-- One step of the RSS item loop either leaves `pub_date` unchanged or
stores a value produced by `normalize_date`. -/
theorem rss_item_step_pub_date (dp : DateParser) (clock : Int) (st : ItemAcc) (c : Xml) :
    (rss_item_step dp clock st c).pub_date = st.pub_date
    ∨ ∃ s, (rss_item_step dp clock st c).pub_date
        = some (normalize_date dp clock (some s)) := by
  unfold rss_item_step
  by_cases h1 : localname c.tag = "title"
  · rw [if_pos h1]
    cases truthyText c.text with
    | some s => left; rfl
    | none => left; rfl
  · rw [if_neg h1]
    by_cases h2 : localname c.tag = "link"
    · rw [if_pos h2]
      cases truthyText c.text with
      | some s => left; rfl
      | none => left; rfl
    · rw [if_neg h2]
      by_cases h3 : localname c.tag = "pubDate"
      · rw [if_pos h3]
        cases truthyText c.text with
        | some s => right; exact ⟨s, rfl⟩
        | none => left; rfl
      · rw [if_neg h3]; left; rfl

/-- The `pub_date` collected over an RSS item is either absent or a
`normalize_date` value. -/
theorem rss_fold_pub_date (dp : DateParser) (clock : Int) (cs : List Xml) :
    ∀ st : ItemAcc,
      (cs.foldl (rss_item_step dp clock) st).pub_date = st.pub_date
      ∨ ∃ s, (cs.foldl (rss_item_step dp clock) st).pub_date
          = some (normalize_date dp clock (some s)) := by
  induction cs with
  | nil => intro st; left; rfl
  | cons c cs ih =>
    intro st
    rw [List.foldl_cons]
    rcases ih (rss_item_step dp clock st c) with h | h
    · rw [h]
      exact rss_item_step_pub_date dp clock st c
    · right; exact h

/-- A non-date element of an Atom entry leaves `pub_date` unchanged. -/
theorem atom_step_pub_date_other (dp : DateParser) (clock : Int) (st : ItemAcc) (c : Xml)
    (hd : ¬ (localname c.tag = "published" ∨ localname c.tag = "updated")) :
    (atom_entry_step dp clock st c).pub_date = st.pub_date := by
  unfold atom_entry_step
  by_cases h1 : localname c.tag = "title"
  · rw [if_pos h1]
    cases truthyText c.text with
    | some s => rfl
    | none => rfl
  · rw [if_neg h1]
    by_cases h2 : localname c.tag = "link"
    · rw [if_pos h2]
      cases truthyText (getAttr c ("href")) with
      | some h => rfl
      | none => rfl
    · rw [if_neg h2, if_neg hd]

/-- A date element with truthy text overwrites `pub_date`. -/
theorem atom_step_pub_date_set (dp : DateParser) (clock : Int) (st : ItemAcc) (c : Xml)
    (hd : localname c.tag = "published" ∨ localname c.tag = "updated") (s : String)
    (htt : truthyText c.text = some s) :
    (atom_entry_step dp clock st c).pub_date
      = some (normalize_date dp clock (some s)) := by
  have h1 : ¬ localname c.tag = "title" := by
    rcases hd with h | h <;> rw [h] <;> decide
  have h2 : ¬ localname c.tag = "link" := by
    rcases hd with h | h <;> rw [h] <;> decide
  unfold atom_entry_step
  rw [if_neg h1, if_neg h2, if_pos hd, htt]

/-- A date element without truthy text leaves `pub_date` unchanged. -/
theorem atom_step_pub_date_keep (dp : DateParser) (clock : Int) (st : ItemAcc) (c : Xml)
    (hd : localname c.tag = "published" ∨ localname c.tag = "updated")
    (htt : truthyText c.text = none) :
    (atom_entry_step dp clock st c).pub_date = st.pub_date := by
  have h1 : ¬ localname c.tag = "title" := by
    rcases hd with h | h <;> rw [h] <;> decide
  have h2 : ¬ localname c.tag = "link" := by
    rcases hd with h | h <;> rw [h] <;> decide
  unfold atom_entry_step
  rw [if_neg h1, if_neg h2, if_pos hd, htt]

/-- The `pub_date` of the Atom entry loop is determined by the last
`published`/`updated` child with truthy text. -/
theorem atom_fold_pub (dp : DateParser) (clock : Int) (cs : List Xml) :
    ∀ st : ItemAcc,
      (cs.foldl (atom_entry_step dp clock) st).pub_date
        = match (cs.filterMap (fun e =>
              if localname e.tag = "published" ∨ localname e.tag = "updated"
              then truthyText e.text else none)).getLast? with
          | some s => some (normalize_date dp clock (some s))
          | none => st.pub_date := by
  induction cs with
  | nil => intro st; rfl
  | cons c cs ih =>
    intro st
    rw [List.foldl_cons, List.filterMap_cons]
    by_cases hd : localname c.tag = "published" ∨ localname c.tag = "updated"
    · cases htt : truthyText c.text with
      | some s =>
        rw [if_pos hd, ih (atom_entry_step dp clock st c), List.getLast?_cons]
        cases hl : (cs.filterMap (fun e =>
            if localname e.tag = "published" ∨ localname e.tag = "updated"
            then truthyText e.text else none)).getLast? with
        | some s2 => simp [hl]
        | none => simp [hl, atom_step_pub_date_set dp clock st c hd s htt]
      | none =>
        rw [if_pos hd, ih (atom_entry_step dp clock st c)]
        cases hl : (cs.filterMap (fun e =>
            if localname e.tag = "published" ∨ localname e.tag = "updated"
            then truthyText e.text else none)).getLast? with
        | some s2 => simp [hl]
        | none => simp [hl, atom_step_pub_date_keep dp clock st c hd htt]
    · rw [if_neg hd, ih (atom_entry_step dp clock st c)]
      cases hl : (cs.filterMap (fun e =>
          if localname e.tag = "published" ∨ localname e.tag = "updated"
          then truthyText e.text else none)).getLast? with
      | some s2 => simp [hl]
      | none => simp [hl, atom_step_pub_date_other dp clock st c hd]

/-- A list permuting a two-element list is one of its two arrangements. -/
theorem perm_pair_cases {α : Type} {l : List α} {a b : α} (h : l.Perm [a, b]) :
    l = [a, b] ∨ l = [b, a] := by
  have hlen := h.length_eq
  match l, hlen with
  | [x, y], _ =>
    have hx : x ∈ [a, b] := h.subset (by simp)
    rcases (by simpa using hx : x = a ∨ x = b) with rfl | rfl
    · left
      have h2 := List.perm_singleton.mp h.cons_inv
      rw [h2]
    · right
      have h2 := List.perm_singleton.mp (h.trans (List.Perm.swap x a [])).cons_inv
      rw [h2]

/-! ## Claim theorems -/

/-- C2: `normalize_date` is total (it returns a value for every input by
construction, the `try/except` being modelled by the `Except` oracle) and
always returns a timezone-aware UTC timestamp; `None`, the empty string,
a raising parse and a falsy parse all yield the current UTC time; a naive
parse result is interpreted as UTC (same wall reading); an aware non-UTC
result is converted to UTC (same instant, offset zero). -/
theorem normalize_date_total_utc (dp : DateParser) (clock : Int) (input : Option String) :
    (normalize_date dp clock input).tz = some 0
    ∧ (input = none → normalize_date dp clock input = ⟨clock, some 0⟩)
    ∧ (input = some "" → normalize_date dp clock input = ⟨clock, some 0⟩)
    ∧ (∀ s, input = some s → dp s = .error () → normalize_date dp clock input = ⟨clock, some 0⟩)
    ∧ (∀ s, input = some s → dp s = .ok none → normalize_date dp clock input = ⟨clock, some 0⟩)
    ∧ (∀ s dt, input = some s → s ≠ "" → dp s = .ok (some dt) → dt.tz = none →
        normalize_date dp clock input = ⟨dt.wall, some 0⟩)
    ∧ (∀ s dt off, input = some s → s ≠ "" → dp s = .ok (some dt) → dt.tz = some off →
        normalize_date dp clock input = ⟨dt.wall - off, some 0⟩) := by
  refine ⟨normalize_date_tz dp clock input, ?_, ?_, ?_, ?_, ?_, ?_⟩
  · rintro rfl; rfl
  · rintro rfl; rfl
  · rintro s rfl h
    by_cases hs : s = "" <;> simp [normalize_date, hs, h]
  · rintro s rfl h
    by_cases hs : s = "" <;> simp [normalize_date, hs, h]
  · rintro s dt rfl hs h htz
    simp [normalize_date, hs, h, htz, astimezoneUtc]
  · rintro s dt off rfl hs h htz
    simp [normalize_date, hs, h, htz, astimezoneUtc]

/-- Witness for C2 at concrete inputs: an aware offset gets converted to
UTC, an unparsable string yields the current UTC time. -/
theorem normalize_date_total_utc_witness :
    normalize_date dpW 5 (some "offex") = ⟨40, some 0⟩
    ∧ normalize_date dpW 5 (some "not a date") = ⟨5, some 0⟩
    ∧ normalize_date dpW 5 none = ⟨5, some 0⟩ := by
  refine ⟨?_, ?_, ?_⟩
  · exact (normalize_date_total_utc dpW 5 (some "offex")).2.2.2.2.2.2
      "offex" ⟨100, some 60⟩ 60 rfl (by decide) rfl rfl
  · exact (normalize_date_total_utc dpW 5 (some "not a date")).2.2.2.1
      "not a date" rfl rfl
  · exact (normalize_date_total_utc dpW 5 none).2.1 rfl

/-- C4: the recency filter keeps exactly the entries whose published
instant is at least `now - backfillDays` (inclusive comparison), and on
the three concrete entries of the claim (published now, now-10d, now-20d with
a 14-day window) exactly the first two survive. -/
theorem window_filter_spec :
    (∀ (clock days : Int) (l : List Entry) (e : Entry),
      e ∈ window_filter clock days l ↔
        e ∈ l ∧ clock - days * 86400 ≤ e.published.instant)
    ∧ window_filter 0 14
        [⟨"now", "now", ⟨0, some 0⟩, "s"⟩, ⟨"m10", "m10", ⟨-864000, some 0⟩, "s"⟩,
         ⟨"m20", "m20", ⟨-1728000, some 0⟩, "s"⟩]
      = [⟨"now", "now", ⟨0, some 0⟩, "s"⟩, ⟨"m10", "m10", ⟨-864000, some 0⟩, "s"⟩] := by
  constructor
  · intro clock days l e
    simp [window_filter, List.mem_filter, DT.instant]
  · decide

/-- C5: aggregation deduplicates by link with the first occurrence in
input order winning — `dedup_by_link` keeps the head and recurses on the
tail with the head link filtered out — and on the concrete claim input
`[⟨A,1⟩, ⟨A,2⟩, ⟨B,3⟩]` (already sorted newest-first, no cutoff applied)
exactly `[⟨A,1⟩, ⟨B,3⟩]` survives: the surviving `A` is the
first-by-sort-order occurrence. -/
theorem dedup_by_link_first_wins :
    (∀ (x : Entry) (l : List Entry),
      dedup_by_link (x :: l)
        = x :: dedup_by_link (l.filter (fun e => !(e.link == x.link))))
    ∧ dedup_by_link [] = []
    ∧ dedup_by_link
        [⟨"a1", "A", ⟨1, some 0⟩, "s"⟩, ⟨"a2", "A", ⟨2, some 0⟩, "s"⟩,
         ⟨"b3", "B", ⟨3, some 0⟩, "s"⟩]
      = [⟨"a1", "A", ⟨1, some 0⟩, "s"⟩, ⟨"b3", "B", ⟨3, some 0⟩, "s"⟩] := by
  refine ⟨?_, rfl, by decide⟩
  intro x l
  unfold dedup_by_link
  rw [List.foldl_cons]
  rw [if_neg (by simp : ¬ (([] : List String).contains x.link = true))]
  rw [dedup_fold, dedup_fold]
  rw [show (([] : List String) ++ [x.link]) = [x.link] from rfl,
    show ([x.link] : List String) = [] ++ [x.link] from rfl]
  rw [firstByLink_filter l [] x.link]
  rfl

/-- C6: the output ordering of `build_feed` is a permutation of its
input, sorted by published timestamp descending, and stable: two entries
with equal published instants that appear in a given order in the input
appear in the same order in the output. -/
theorem build_feed_order_spec :
    (∀ items : List Entry, (build_feed_order items).Perm items)
    ∧ (∀ items : List Entry,
        (build_feed_order items).Pairwise
          (fun a b => b.published.instant ≤ a.published.instant))
    ∧ (∀ (items : List Entry) (a b : Entry), List.Sublist [a, b] items →
        a.published.instant = b.published.instant →
        List.Sublist [a, b] (build_feed_order items)) := by
  have htrans : ∀ x y z : Entry,
      (decide (y.published.instant ≤ x.published.instant)) = true →
      (decide (z.published.instant ≤ y.published.instant)) = true →
      (decide (z.published.instant ≤ x.published.instant)) = true := by
    intro x y z hxy hyz
    simp only [decide_eq_true_eq] at *
    omega
  have htot : ∀ x y : Entry,
      ((decide (y.published.instant ≤ x.published.instant))
        || (decide (x.published.instant ≤ y.published.instant))) = true := by
    intro x y
    simp only [Bool.or_eq_true, decide_eq_true_eq]
    omega
  refine ⟨?_, ?_, ?_⟩
  · intro items
    exact List.mergeSort_perm items _
  · intro items
    have h := @List.sorted_mergeSort Entry
      (fun a b => decide (b.published.instant ≤ a.published.instant)) htrans htot items
    exact h.imp (fun hab => by simpa using hab)
  · intro items a b hsub heq
    refine @List.sublist_mergeSort Entry
      (fun a b => decide (b.published.instant ≤ a.published.instant)) items htrans htot
      [a, b] ?_ hsub
    refine List.pairwise_cons.mpr ⟨?_, List.pairwise_singleton _ _⟩
    intro c hc
    rw [List.mem_singleton] at hc
    subst hc
    simp [heq]

/-- C1: on an RSS 2.0 root, `parse_rss_feed` is exactly a `filterMap` of
the per-item extractor over the channel items; its length counts the
items whose folded title and link are both non-empty, so with N
well-formed items it returns exactly N entries and an item missing a
title or link is dropped, not defaulted; and every returned entry carries
an aware UTC published value (defaulted to the current UTC time when no
`pubDate` was parsed). -/
theorem parse_rss_feed_rss_spec (dp : DateParser) (clock : Int) (url : String) (root : Xml)
    (hroot : localname root.tag = "rss") :
    parse_rss_feed dp clock url root
      = (rss_items root).filterMap (rss_extract dp clock url)
    ∧ (parse_rss_feed dp clock url root).length
        = (rss_items root).countP (fun it => (rss_extract dp clock url it).isSome)
    ∧ (∀ it : Xml, (rss_extract dp clock url it).isSome = true ↔
        ((rss_item_fields dp clock it).title ≠ ""
          ∧ (rss_item_fields dp clock it).link ≠ ""))
    ∧ ((∀ it ∈ rss_items root, (rss_extract dp clock url it).isSome = true) →
        (parse_rss_feed dp clock url root).length = (rss_items root).length)
    ∧ (∀ e ∈ parse_rss_feed dp clock url root, e.published.tz = some 0) := by
  have heq : parse_rss_feed dp clock url root
      = (rss_items root).filterMap (rss_extract dp clock url) := by
    unfold parse_rss_feed
    simp only [hroot]
    rw [if_pos trivial]
    unfold rss_items
    exact flatMap_filterMap _ _ _
  refine ⟨heq, ?_, ?_, ?_, ?_⟩
  · rw [heq, length_filterMap_eq_countP]
  · intro it
    unfold rss_extract
    by_cases hc : (rss_item_fields dp clock it).title ≠ ""
        ∧ (rss_item_fields dp clock it).link ≠ ""
    · rw [if_pos hc]
      simpa using hc
    · rw [if_neg hc]
      simpa using hc
  · intro hall
    rw [heq, length_filterMap_eq_countP]
    exact List.countP_eq_length.mpr hall
  · intro e he
    rw [heq] at he
    obtain ⟨it, _, hext⟩ := List.mem_filterMap.mp he
    unfold rss_extract at hext
    by_cases hc : (rss_item_fields dp clock it).title ≠ ""
        ∧ (rss_item_fields dp clock it).link ≠ ""
    · rw [if_pos hc, Option.some_inj] at hext
      subst hext
      simp only
      rcases rss_fold_pub_date dp clock it.children ⟨"", "", none⟩ with h | ⟨s, h⟩
      · unfold rss_item_fields
        rw [h]
        rfl
      · unfold rss_item_fields
        rw [h]
        exact normalize_date_tz dp clock (some s)
    · rw [if_neg hc] at hext
      exact absurd hext (by simp)

/-- Witness for C1: on the concrete mixed document (two well-formed
items, one item without a link) the parser returns exactly two entries,
both with aware UTC timestamps; on the all-well-formed document it
returns as many entries as there are items. -/
theorem parse_rss_feed_rss_spec_witness :
    (parse_rss_feed dpC1 7 "F" rssDocC1).length = 2
    ∧ (∀ e ∈ parse_rss_feed dpC1 7 "F" rssDocC1, e.published.tz = some 0)
    ∧ (parse_rss_feed dpC1 7 "F" rssDocGood).length = (rss_items rssDocGood).length := by
  have h := parse_rss_feed_rss_spec dpC1 7 ("F") rssDocC1 (by decide)
  have hg := parse_rss_feed_rss_spec dpC1 7 ("F") rssDocGood (by decide)
  refine ⟨?_, h.2.2.2.2, hg.2.2.2.1 (by decide)⟩
  rw [h.2.1]
  decide

/-- Witness for C6 at a concrete input: two entries with the same
published instant keep their input order in the sorted output. -/
theorem build_feed_order_spec_witness :
    List.Sublist
      [(⟨"t1", "l1", ⟨5, some 0⟩, "s"⟩ : Entry), ⟨"t2", "l2", ⟨5, some 0⟩, "s"⟩]
      (build_feed_order
        [⟨"t1", "l1", ⟨5, some 0⟩, "s"⟩, ⟨"t2", "l2", ⟨5, some 0⟩, "s"⟩]) :=
  build_feed_order_spec.2.2 _ _ _ (List.Sublist.refl _) rfl

/-- C3 counterexample: in a concrete Atom entry carrying both a
parsable `published` element and, after it, a parsable `updated` element,
the produced timestamp is the parsed `updated` value (wall 2222), not the
parsed `published` value (wall 1111) — so `published` is not preferred
when both are present. -/
theorem atom_published_preference_cx :
    (parse_rss_feed dpC3 0 "F" atomDocC3).map (fun e => e.published) = [⟨2222, some 0⟩]
    ∧ normalize_date dpC3 0 (some "2024-01-01T00:00:00Z") = ⟨1111, some 0⟩
    ∧ normalize_date dpC3 0 (some "2024-06-01T00:00:00Z") = ⟨2222, some 0⟩
    ∧ (⟨2222, some 0⟩ : DT) ≠ ⟨1111, some 0⟩ := by
  refine ⟨by decide, by decide, by decide, by decide⟩

/-- C3 amended: the Atom entry timestamp is taken from whichever of the
`published`/`updated` elements (with truthy text) occurs LAST in document
order; `updated` is not merely a fallback — when both are present and the
`updated` element follows `published`, the parsed `updated` value wins. -/
theorem atom_pub_date_last_wins :
    (∀ (dp : DateParser) (clock : Int) (entry : Xml),
      (atom_entry_fields dp clock entry).pub_date
        = (atom_date_texts entry).getLast?.map
            (fun s => normalize_date dp clock (some s)))
    ∧ (∀ (dp : DateParser) (clock : Int) (entry : Xml) (pubT updT : String),
        atom_date_texts entry = [pubT, updT] →
        (atom_entry_fields dp clock entry).pub_date
          = some (normalize_date dp clock (some updT))) := by
  have hmain : ∀ (dp : DateParser) (clock : Int) (entry : Xml),
      (atom_entry_fields dp clock entry).pub_date
        = (atom_date_texts entry).getLast?.map
            (fun s => normalize_date dp clock (some s)) := by
    intro dp clock entry
    unfold atom_entry_fields
    rw [atom_fold_pub]
    unfold atom_date_texts
    cases hl : (entry.children.filterMap (fun e =>
        if localname e.tag = "published" ∨ localname e.tag = "updated"
        then truthyText e.text else none)).getLast? with
    | some s => simp [hl]
    | none => simp [hl]
  refine ⟨hmain, ?_⟩
  intro dp clock entry pubT updT h
  rw [hmain dp clock entry, h]
  rfl

/-- Witness for the amended C3: on the concrete entry whose date texts
are the published string followed by the updated string, the timestamp is
the normalized updated string. -/
theorem atom_pub_date_last_wins_witness :
    (atom_entry_fields dpC3 0 entryC3).pub_date
      = some (normalize_date dpC3 0 (some "2024-06-01T00:00:00Z")) :=
  atom_pub_date_last_wins.2 dpC3 0 entryC3
    "2024-01-01T00:00:00Z" "2024-06-01T00:00:00Z" (by decide)

/-- C7 counterexample: on a `urlset` root whose only `<loc>` is not
inside a `<url>` element, the resolver does NOT return the (empty)
`<url><loc>` collection the claim describes for urlset roots — the
empty collection triggers the generic fallback, which returns the loose
`<loc>`. -/
theorem parse_sitemap_urlset_cx :
    parse_sitemap fbL gzNone pxL id 1 "S" = ["https://x/a"]
    ∧ localname looseDoc.tag = "urlset"
    ∧ spec_urlset_result looseDoc = []
    ∧ parse_sitemap fbL gzNone pxL id 1 "S" ≠ spec_urlset_result looseDoc := by
  refine ⟨by decide, by decide, by decide, by decide⟩

/-- C7 amended: a sitemap-index root is resolved by recursively resolving
every nested `<sitemap><loc>` entry and concatenating the results in
completion order; any non-index root yields the `<url><loc>` collection
when the root is a `urlset` AND that collection is non-empty, and
otherwise (unrecognized root tag, or a urlset yielding no `<url><loc>`)
falls back to every `<loc>` anywhere in the tree; in particular a root
listing two sub-sitemaps, each a urlset with two distinct locs, resolves
to the same four URLs up to permutation regardless of the completion
order. -/
theorem parse_sitemap_spec (fB : String → Option (List Nat))
    (gz : List Nat → Option (List Nat)) (pX : List Nat → Option Xml)
    (sched : List String → List String) :
    (∀ (fuel : Nat) (url : String) (raw : List Nat) (root : Xml),
      fB url = some raw → pX (maybe_decompress gz url raw) = some root →
      localname root.tag ≠ "sitemapindex" →
      parse_sitemap fB gz pX sched (fuel + 1) url =
        (let urls := if localname root.tag = "urlset" then urlset_locs root else []
         if urls = [] then all_locs root else urls))
    ∧ (∀ (fuel : Nat) (url : String) (raw : List Nat) (root : Xml),
      fB url = some raw → pX (maybe_decompress gz url raw) = some root →
      localname root.tag = "sitemapindex" →
      parse_sitemap fB gz pX sched (fuel + 1) url =
        (sched (sitemap_index_nested root)).flatMap
          (parse_sitemap fB gz pX sched fuel))
    ∧ (∀ sched2 : List String → List String,
      (sched2 ["S1", "S2"]).Perm ["S1", "S2"] →
      (parse_sitemap fb4 gzNone px4 sched2 2 "ROOT").Perm ["u1", "u2", "u3", "u4"]) := by
  refine ⟨?_, ?_, ?_⟩
  · intro fuel url raw root h1 h2 h3
    simp only [parse_sitemap, h1, h2]
    rw [if_neg h3]
  · intro fuel url raw root h1 h2 h3
    simp only [parse_sitemap, h1, h2]
    rw [if_pos h3]
  · intro sched2 hperm
    have e1 : parse_sitemap fb4 gzNone px4 sched2 1 "S1" = ["u1", "u2"] := rfl
    have e2 : parse_sitemap fb4 gzNone px4 sched2 1 "S2" = ["u3", "u4"] := rfl
    have e0 : parse_sitemap fb4 gzNone px4 sched2 2 "ROOT"
        = (sched2 ["S1", "S2"]).flatMap (parse_sitemap fb4 gzNone px4 sched2 1) := rfl
    rw [e0]
    rcases perm_pair_cases hperm with h | h <;> rw [h]
    · rw [List.flatMap_cons, List.flatMap_cons, List.flatMap_nil, e1, e2, List.append_nil]
      exact List.Perm.refl _
    · rw [List.flatMap_cons, List.flatMap_cons, List.flatMap_nil, e1, e2, List.append_nil]
      exact List.perm_append_comm

/-- Witness for the amended C7: with the identity completion order the
scenario resolves to the four URLs, and on the loose-loc urlset the
resolver falls back to collecting every `<loc>` in the tree. -/
theorem parse_sitemap_spec_witness :
    (parse_sitemap fb4 gzNone px4 id 2 "ROOT").Perm ["u1", "u2", "u3", "u4"]
    ∧ parse_sitemap fbL gzNone pxL id 1 "S" = all_locs looseDoc := by
  constructor
  · exact (parse_sitemap_spec fb4 gzNone px4 id).2.2 id (List.Perm.refl _)
  · have h := (parse_sitemap_spec fbL gzNone pxL id).1 0 "S" [9] looseDoc rfl rfl (by decide)
    rw [h]
    decide

/-- C8: gzip handling of sitemap bodies — a `.gz`-suffixed URL (case
insensitively) or gzip-magic-prefixed body is decompressed, a failed
decompression falls back to the raw bytes, anything else passes through
untouched; and a fetch failure or an XML parse failure on a single
sitemap document yields an empty result for that document, while sibling
branches of an index still contribute (concrete final conjunct). -/
theorem maybe_decompress_failures_spec :
    (∀ (gz : List Nat → Option (List Nat)) (url : String) (content d : List Nat),
      endsWithL (lowerStr url) (".gz") = true → gz content = some d →
      maybe_decompress gz url content = d)
    ∧ (∀ (gz : List Nat → Option (List Nat)) (url : String) (content : List Nat),
      endsWithL (lowerStr url) (".gz") = true → gz content = none →
      maybe_decompress gz url content = content)
    ∧ (∀ (gz : List Nat → Option (List Nat)) (url : String) (content d : List Nat),
      endsWithL (lowerStr url) (".gz") = false → content.take 2 = [0x1f, 0x8b] →
      gz content = some d → maybe_decompress gz url content = d)
    ∧ (∀ (gz : List Nat → Option (List Nat)) (url : String) (content : List Nat),
      endsWithL (lowerStr url) (".gz") = false → content.take 2 = [0x1f, 0x8b] →
      gz content = none → maybe_decompress gz url content = content)
    ∧ (∀ (gz : List Nat → Option (List Nat)) (url : String) (content : List Nat),
      endsWithL (lowerStr url) (".gz") = false → content.take 2 ≠ [0x1f, 0x8b] →
      maybe_decompress gz url content = content)
    ∧ (∀ (fB : String → Option (List Nat)) (gz : List Nat → Option (List Nat))
        (pX : List Nat → Option Xml) (sched : List String → List String)
        (fuel : Nat) (url : String),
      fB url = none → parse_sitemap fB gz pX sched fuel url = [])
    ∧ (∀ (fB : String → Option (List Nat)) (gz : List Nat → Option (List Nat))
        (pX : List Nat → Option Xml) (sched : List String → List String)
        (fuel : Nat) (url : String) (raw : List Nat),
      fB url = some raw → pX (maybe_decompress gz url raw) = none →
      parse_sitemap fB gz pX sched (fuel + 1) url = [])
    ∧ parse_sitemap fbPart gzNone pxPart id 2 "R2" = ["v1", "v2"] := by
  refine ⟨?_, ?_, ?_, ?_, ?_, ?_, ?_, by decide⟩
  · intro gz url content d h1 h2
    unfold maybe_decompress
    rw [if_pos h1, h2]
    rfl
  · intro gz url content h1 h2
    unfold maybe_decompress
    rw [if_pos h1, h2]
    rfl
  · intro gz url content d h1 h2 h3
    unfold maybe_decompress
    rw [if_neg (by simp [h1]), if_pos h2, h3]
    rfl
  · intro gz url content h1 h2 h3
    unfold maybe_decompress
    rw [if_neg (by simp [h1]), if_pos h2, h3]
    rfl
  · intro gz url content h1 h2
    unfold maybe_decompress
    rw [if_neg (by simp [h1]), if_neg h2]
  · intro fB gz pX sched fuel url h1
    cases fuel with
    | zero => rfl
    | succ n => simp only [parse_sitemap, h1]
  · intro fB gz pX sched fuel url raw h1 h2
    simp only [parse_sitemap, h1, h2]

/-- Witness for C8 at concrete inputs: decompression of a `.GZ` URL, the
raw-bytes fallback on gzip failure, and the empty result on a fetch
failure. -/
theorem maybe_decompress_failures_spec_witness :
    maybe_decompress (fun b => if b = [1, 2] then some [3] else none) "a.XML.GZ" [1, 2] = [3]
    ∧ maybe_decompress gzNone "a.xml.gz" [1, 2] = [1, 2]
    ∧ maybe_decompress (fun _ => some [7]) "a.xml" [0x1f, 0x8b, 5] = [7]
    ∧ parse_sitemap fbPart gzNone pxPart id 2 "T1" = [] := by
  refine ⟨?_, ?_, ?_, ?_⟩
  · exact maybe_decompress_failures_spec.1 _ "a.XML.GZ" [1, 2] [3] (by decide) (by decide)
  · exact maybe_decompress_failures_spec.2.1 _ "a.xml.gz" [1, 2] (by decide) rfl
  · exact maybe_decompress_failures_spec.2.2.1 _ "a.xml" [0x1f, 0x8b, 5] [7]
      (by decide) (by decide) rfl
  · exact maybe_decompress_failures_spec.2.2.2.2.2.1 fbPart gzNone pxPart id 2 "T1" rfl

/-- C9: `extract_date_from_soup` tries its strategies in a fixed order
with the first match winning — it equals the normalizer applied to the
first-match-wins strategy chain (structured meta tags in their listed
order, then the first `time` element (its `datetime` attribute, else its
visible text), then the heuristic document-order scan) — its result is
always an aware UTC value (the current UTC time when no strategy matches
or the matched text fails to parse), and the heuristic regex accepts
exactly the three date shapes, as the concrete probes show. -/
theorem extract_date_strategy_spec (dp : DateParser) (clock : Int) (doc : List HNode) :
    extract_date_from_soup dp clock doc
      = normalize_date dp clock (date_text_strategy doc)
    ∧ (extract_date_from_soup dp clock doc).tz = some 0
    ∧ date_regex_search ("Published on 31 December 2024.") = some ("31 December 2024")
    ∧ date_regex_search ("Updated: December 31, 2024 at noon") = some ("December 31, 2024")
    ∧ date_regex_search ("Release date 2024-12-31") = some ("2024-12-31")
    ∧ date_regex_search ("This page was updated recently") = none := by
  have hmain : extract_date_from_soup dp clock doc
      = normalize_date dp clock (date_text_strategy doc) := by
    unfold extract_date_from_soup date_text_strategy
    cases h1 : meta_content doc ("property") ("article:published_time") with
    | some v => simp [h1]
    | none =>
    cases h2 : meta_content doc ("name") ("article:published_time") with
    | some v => simp [h1, h2]
    | none =>
    cases h3 : meta_content doc ("property") ("og:updated_time") with
    | some v => simp [h1, h2, h3]
    | none =>
    cases h4 : meta_content doc ("name") ("date") with
    | some v => simp [h1, h2, h3, h4]
    | none =>
    cases h5 : (docElems doc).find? (fun e => hTag e == some ("time")) with
    | some t =>
      cases h6 : truthyText (hGetAttr t ("datetime")) with
      | some d => simp [h1, h2, h3, h4, h5, h6]
      | none =>
        by_cases h7 : get_text ("") t = ""
        · cases h8 : heuristic_scan doc with
          | some m => simp [h1, h2, h3, h4, h5, h6, h7, h8]
          | none => simp [h1, h2, h3, h4, h5, h6, h7, h8, normalize_date]
        · simp [h1, h2, h3, h4, h5, h6, h7]
    | none =>
      cases h8 : heuristic_scan doc with
      | some m => simp [h1, h2, h3, h4, h5, h8]
      | none => simp [h1, h2, h3, h4, h5, h8, normalize_date]
  refine ⟨hmain, ?_, by decide, by decide, by decide, by decide⟩
  rw [hmain]
  exact normalize_date_tz dp clock (date_text_strategy doc)

/-- C10: `is_help_domain` accepts exactly the URLs that parse with an
`http`/`https` scheme and whose raw netloc merely ends with the character
string `help.zscaler.com` (a string-suffix check, not an exact-host or
dot-boundary match — `evilhelp.zscaler.com` passes), returns `False`
when `urlparse` raises, and the sitemap URL selection inherits the same
suffix check: the evil-host release-notes URL is selected. -/
theorem is_help_domain_suffix_spec :
    (∀ url : String, is_help_domain url = true ↔
      ∃ sch netloc path, urlsplit_model url = .ok (sch, netloc, path)
        ∧ (sch = "http" ∨ sch = "https")
        ∧ endsWithL netloc ("help.zscaler.com") = true)
    ∧ (∀ url : String, urlsplit_model url = .error () → is_help_domain url = false)
    ∧ is_help_domain ("https://evilhelp.zscaler.com/zia/release-notes") = true
    ∧ is_help_domain ("http://[oops") = false
    ∧ urlsplit_model ("http://[oops") = .error ()
    ∧ "https://evilhelp.zscaler.com/zia/release-notes"
        ∈ select_relevant_urls ["https://evilhelp.zscaler.com/zia/release-notes"] := by
  refine ⟨?_, ?_, by decide, by decide, by rfl, ?_⟩
  · intro url
    unfold is_help_domain
    cases h : urlsplit_model url with
    | error e => simp [h]
    | ok trip =>
      obtain ⟨sch, netloc, path⟩ := trip
      simp only [h, Bool.or_eq_true, Bool.and_eq_true, beq_iff_eq, Except.ok.injEq,
        Prod.mk.injEq]
      constructor
      · rintro ⟨ha, hb⟩
        exact ⟨sch, netloc, path, ⟨rfl, rfl, rfl⟩, ha, hb⟩
      · rintro ⟨s, n, p, ⟨rfl, rfl, rfl⟩, ha, hb⟩
        exact ⟨ha, hb⟩
  · intro url h
    unfold is_help_domain
    rw [h]
  · unfold select_relevant_urls
    refine (List.Perm.mem_iff (List.mergeSort_perm _ _)).mpr ?_
    rw [List.mem_dedup]
    decide

/-- Witness for C10: a URL with an unbalanced bracket netloc makes the
parse model raise, and `is_help_domain` returns `False` on it. -/
theorem is_help_domain_suffix_spec_witness :
    is_help_domain ("https://[half") = false :=
  is_help_domain_suffix_spec.2.1 "https://[half" (by rfl)

end ZsRss
